import Mathlib

/-!
Verification of my_kaleidoscope: the static build driver (`sob.cpp`) and the
expression code generator (`toy.cpp`).

The development embeds

* the two toolchain contexts `GxxContext` and `ClContext`, the two target
  declarations `Sob` and `Toy`, the preprocessor selection of `CxxContext`
  and the driver `main` of `sob.cpp`;
* `BinaryExprAST::codegen`, `NumberExprAST::codegen` and `LogErrorV` of
  `toy.cpp`.

`sob.cpp` includes `sob.hpp`, which holds `sopho::StaticString` and
`sopho::CxxToolchain<Context>::CxxBuilder<Target>::build()`.  That header is
not among the sources; the builder is therefore written down from the
specification (sections 4.1, 4.2, 6 and 7) and marked as such.
-/

namespace Sopho

/-! ## Toolchain contexts (`sob.cpp`, lines 6-24) -/

/-- A toolchain context: the static members of `GxxContext` / `ClContext`.
`sopho::StaticString` and `std::string_view` are strings.  `GxxContext`
declares `ldflags` and no `cxxflags`, `ClContext` declares `cxxflags` and no
`ldflags`; a member that a context does not declare is the empty list. -/
structure CxxContext where
  cxx : String
  obj_prefix : String
  obj_postfix : String
  bin_prefix : String
  build_prefix : String
  cxxflags : List String
  ldflags : List String
deriving DecidableEq, Repr

/-- The `struct GxxContext` of `sob.cpp`. -/
def GxxContext : CxxContext where
  cxx := "g++"
  obj_prefix := " -o "
  obj_postfix := ".o"
  bin_prefix := " -o "
  build_prefix := "build/"
  cxxflags := []
  ldflags := ["`llvm-config --cxxflags --ldflags --system-libs --libs all`"]

/-- The `struct ClContext` of `sob.cpp`. -/
def ClContext : CxxContext where
  cxx := "cl"
  obj_prefix := " /Fo:"
  obj_postfix := ".obj"
  bin_prefix := " /Fe:"
  build_prefix := "build/"
  cxxflags := ["/std:c++17"]
  ldflags := []

/-! ## Target declarations (`sob.cpp`, lines 25-42) -/

/-- A target as `sob.cpp` declares one: the `target` name and the `source`
members of the types in the `Dependent` tuple, in tuple order. -/
structure Target where
  target : String
  Dependent : List String
deriving DecidableEq, Repr

/-- The `struct SobSource`: its `source` member. -/
def SobSource : String := "sob.cpp"

/-- The `struct Sob`: `Dependent = std::tuple<SobSource>`, `target{"sob"}`. -/
def Sob : Target := ⟨"sob", [SobSource]⟩

/-- The `struct ToySource`: its `source` member. -/
def ToySource : String := "toy.cpp"

/-- The `struct Toy`: `Dependent = std::tuple<ToySource>`, `target{"toy"}`. -/
def Toy : Target := ⟨"toy", [ToySource]⟩

/-- The build manifest of the driver: the targets `main` builds, in the order
of its statements. -/
def manifest : List Target := [Sob, Toy]

/-! ## Selection of the context (`sob.cpp`, lines 44-49) -/

/-- The `#if defined(_MSC_VER) ... #elif defined(__GNUC__) ... #else #endif`
block: `CxxContext` is `ClContext` under MSVC, `GxxContext` under a GNU
compiler, and stays undeclared otherwise (the driver then does not compile). -/
def selectContext (msc_ver gnuc : Bool) : Option CxxContext :=
  if msc_ver then some ClContext
  else if gnuc then some GxxContext
  else none

/-! ## The external process boundary -/

/-- What one attempt to run an external command yields: the exit status of
the process, or the fact that it could not be started. -/
inductive ProcResult where
  | exited (status : Int)
  | spawnFailed
deriving DecidableEq, Repr

/-- The environment in which commands run: running a command line in a world
gives the next world and the result of the process. -/
abbrev Exec (W : Type) := W → String → W × ProcResult

/-- The two kinds of process a build issues. -/
inductive Invocation where
  | compile (source : String)
  | link (objects : List String) (artifact : String)
deriving DecidableEq, Repr

/-- Whether an invocation is a compile step. -/
def Invocation.isCompile : Invocation → Bool
  | .compile _ => true
  | .link _ _ => false

/-- Whether an invocation is a link step. -/
def Invocation.isLink : Invocation → Bool
  | .compile _ => false
  | .link _ _ => true

/-- The error taxonomy of section 7 of the specification. -/
inductive BuildError where
  | InvalidDeclaration
  | CompileFailure (source : String)
  | LinkFailure
  | ProcessSpawnFailure
deriving DecidableEq, Repr

/-- The terminal states of the per-target state machine. -/
inductive BuildResult where
  | Succeeded
  | Failed (e : BuildError)
deriving DecidableEq, Repr

/-- One entry of the record of a build: the invocation, the command line
handed to the process boundary, and what the process reported. -/
structure Step where
  inv : Invocation
  command : String
  result : ProcResult
deriving DecidableEq, Repr

/-! ## The toolchain descriptor operations (modelled from the specification) -/

/-- Modelled from the spec: the part of `objectPathFor` that `sob.hpp` would
hold, removing the extension of a source path (the scenario of section 8 maps
`a.cpp` to `build/a.o`).  The extension is what follows the last `.` of the
last path component; a path without one is kept. -/
def stripExtension (path : String) : String :=
  match path.data.reverse.dropWhile (fun c => c != '.' && c != '/') with
  | '.' :: rest => String.mk rest.reverse
  | _ => path

/-- Modelled from the spec: `objectPathFor(sourcePath)` of section 4.1, absent
from the sources (`sob.hpp`): the object path lies beneath the build-output
directory and carries the object-file extension of the context. -/
def objectPathFor (ctx : CxxContext) (source : String) : String :=
  ctx.build_prefix ++ stripExtension source ++ ctx.obj_postfix

/-- Every flag of a list, each preceded by a blank. -/
def flagString (flags : List String) : String :=
  flags.foldl (fun acc f => acc ++ " " ++ f) ""

/-- Modelled from the spec: `compileCommand(sourcePath)` of section 4.1, absent
from the sources (`sob.hpp`): the compiler, the mandatory compile flags, the
source, and the object path introduced by the object prefix of the context. -/
def compileCommand (ctx : CxxContext) (source : String) : String :=
  ctx.cxx ++ flagString ctx.cxxflags ++ " -c " ++ source
    ++ ctx.obj_prefix ++ objectPathFor ctx source

/-- Modelled from the spec: `linkCommand(objectPaths, artifactName)` of section
4.1, absent from the sources (`sob.hpp`): the compiler, the object paths in
the order given, the artifact introduced by the binary prefix of the context,
and the mandatory link flags. -/
def linkCommand (ctx : CxxContext) (objects : List String) (artifact : String) : String :=
  ctx.cxx ++ flagString objects ++ ctx.bin_prefix ++ artifact ++ flagString ctx.ldflags

/-! ## The build graph resolver (modelled from the specification) -/

/-- Modelled from the spec: a `TargetDeclaration` of section 3, whose check is
absent from the sources (`sob.hpp`): an artifact name and an ordered,
non-empty collection of sources. -/
structure TargetDeclaration where
  target : String
  sources : List String
  nonempty : sources ≠ []

/-- Modelled from the spec: declaring a target, absent from the sources
(`sob.hpp`): a target with zero sources is rejected with
`InvalidDeclaration` (sections 4.2 and 7). -/
def declare (t : Target) : Except BuildError TargetDeclaration :=
  if h : t.Dependent = [] then .error .InvalidDeclaration
  else .ok ⟨t.target, t.Dependent, h⟩

/-- The outcome of running a resolver: the world left behind, the record of
the processes issued, and the terminal state. -/
structure Run (W : Type) where
  world : W
  steps : List Step
  result : BuildResult

/-- Modelled from the spec: step 1 of `build()` in section 4.2, absent from the
sources (`sob.hpp`): the sources are compiled in declaration order, one
blocking process each; the first process that does not exit with status 0
ends the loop, and `none` is returned when all of them succeeded. -/
def compileAll {W : Type} (ctx : CxxContext) (exec : Exec W) :
    List String → W → W × List Step × Option BuildError
  | [], w => (w, [], none)
  | s :: rest, w =>
    match exec w (compileCommand ctx s) with
    | (w1, .exited status) =>
      if status = 0 then
        match compileAll ctx exec rest w1 with
        | (w2, steps, e) => (w2, ⟨.compile s, compileCommand ctx s, .exited status⟩ :: steps, e)
      else (w1, [⟨.compile s, compileCommand ctx s, .exited status⟩], some (.CompileFailure s))
    | (w1, .spawnFailed) =>
      (w1, [⟨.compile s, compileCommand ctx s, .spawnFailed⟩], some .ProcessSpawnFailure)

/-- Modelled from the spec: step 2 of `build()` in section 4.2, absent from the
sources (`sob.hpp`): one link process over the object paths of the sources, in
declaration order, and the artifact name. -/
def linkStep {W : Type} (ctx : CxxContext) (exec : Exec W) (t : TargetDeclaration) (w : W) :
    W × Step × BuildResult :=
  let objects := t.sources.map (objectPathFor ctx)
  let cmd := linkCommand ctx objects t.target
  match exec w cmd with
  | (w1, .exited status) =>
    (w1, ⟨.link objects t.target, cmd, .exited status⟩,
      if status = 0 then .Succeeded else .Failed .LinkFailure)
  | (w1, .spawnFailed) =>
    (w1, ⟨.link objects t.target, cmd, .spawnFailed⟩, .Failed .ProcessSpawnFailure)

/-- Modelled from the spec: `build()` of the Build Graph Resolver for a valid
declaration (section 4.2), absent from the sources (`sob.hpp`): compile every
source, then link, and succeed only if every step succeeded.  Only the
processes are recorded: the specification names the compiler process of each
source and the linker process of the target as the only processes spawned,
and leaves the creation of the build-output directory open. -/
def resolve {W : Type} (ctx : CxxContext) (exec : Exec W) (t : TargetDeclaration) (w : W) :
    Run W :=
  match compileAll ctx exec t.sources w with
  | (w1, steps, some e) => ⟨w1, steps, .Failed e⟩
  | (w1, steps, none) =>
    match linkStep ctx exec t w1 with
    | (w2, step, r) => ⟨w2, steps ++ [step], r⟩

/-- Modelled from the spec: `sopho::CxxToolchain<Context>::CxxBuilder<Target>::build()`,
absent from the sources (`sob.hpp`): a target that is not a valid declaration
is rejected before any process is spawned; a valid one is resolved. -/
def CxxBuilder.build {W : Type} (ctx : CxxContext) (exec : Exec W) (t : Target) (w : W) :
    Run W :=
  match declare t with
  | .error e => ⟨w, [], .Failed e⟩
  | .ok d => resolve ctx exec d w

/-! ## The driver (`sob.cpp`, lines 51-56) -/

/-- What the driver leaves behind: the world, the processes issued by its
calls of `build()`, the terminal state of each call (which `main` does not
read), and the exit status `main` returns. -/
structure Session (W : Type) where
  world : W
  steps : List Step
  results : List BuildResult
  exitCode : Int

/-- The `main` of `sob.cpp` for a builder given as a parameter: the statement
`CxxBuilder<Sob>::build();`, then `CxxBuilder<Toy>::build();`, both on the one
`CxxContext`, each a call whose value is not used, then `return 0;`. -/
def mainWith {W : Type} (build : CxxContext → Target → W → Run W) (ctx : CxxContext) (w : W) :
    Session W :=
  let r1 := build ctx Sob w
  let r2 := build ctx Toy r1.world
  ⟨r2.world, r1.steps ++ r2.steps, [r1.result, r2.result], 0⟩

/-- A builder that only writes down how it is called (context and target),
with the terminal state it is told to report. -/
def logCalls (outcome : Target → BuildResult) (ctx : CxxContext) (t : Target)
    (log : List (CxxContext × Target)) : Run (List (CxxContext × Target)) :=
  ⟨log ++ [(ctx, t)], [], outcome t⟩

/-- The `main` of `sob.cpp` with the builder of the specification. -/
def main {W : Type} (ctx : CxxContext) (exec : Exec W) (w : W) : Session W :=
  mainWith (fun c t => CxxBuilder.build c exec t) ctx w

/-! ## Concrete process environments used to run the model -/

/-- An environment in which every process exits with status 0. -/
def allSucceed : Exec Unit := fun _ _ => ((), .exited 0)

/-- An environment that counts the processes: the one numbered `k` exits with
status 1, every other one with status 0. -/
def failAt (k : Nat) : Exec Nat := fun n _ => (n + 1, if n = k then .exited 1 else .exited 0)

/-! ## Definitions used to state the results -/

/-- The step recorded for the compile of one source. -/
def compileStepOf (ctx : CxxContext) (s : String) (r : ProcResult) : Step :=
  ⟨.compile s, compileCommand ctx s, r⟩

/-- Terminal states in which the build of `Sob` fails at its compile step and
every other build succeeds. -/
def sobFails (t : Target) : BuildResult :=
  if t = Sob then .Failed (.CompileFailure SobSource) else .Succeeded

/-- Terminal states in which every build succeeds. -/
def noneFails (_ : Target) : BuildResult := .Succeeded

end Sopho

namespace Kaleidoscope

/-! ## The code generator of `toy.cpp` (lines 27-92) -/

/-- The calls into LLVM that `toy.cpp` makes on `Builder` and `TheContext`.
`B` is what the builder holds (the instructions emitted so far), `V` stands
for an `llvm::Value` that exists (a non-null `llvm::Value *`), `D` for
`double`.  Each `Create...` call gives the builder after the call and the
value produced; LLVM returns a value from each of them. -/
structure IRBuilder (B V D : Type) where
  ConstantFP : D → V
  CreateFAdd : B → V → V → String → B × V
  CreateFSub : B → V → V → String → B × V
  CreateFMul : B → V → V → String → B × V
  CreateFCmpULT : B → V → V → String → B × V
  CreateUIToFP : B → V → String → B × V

/-- The state the code generator works on: the builder and what has been
written to `stderr`. -/
structure CodegenState (B : Type) where
  builder : B
  stderr : List String

/-- A `codegen()` member: from a state to the state it leaves and the
`llvm::Value *` it returns, `none` being `nullptr`. -/
abbrev Codegen (B V : Type) := CodegenState B → CodegenState B × Option V

/-- The function `LogError`: `fprintf(stderr, "Error: %s\n", Str)` and
`return nullptr`. -/
def LogError {B α : Type} (Str : String) (s : CodegenState B) : CodegenState B × Option α :=
  (⟨s.builder, s.stderr ++ ["Error: " ++ Str ++ "\n"]⟩, none)

/-- The function `LogErrorV`: `LogError(Str)` and `return nullptr`. -/
def LogErrorV {B V : Type} (Str : String) (s : CodegenState B) : CodegenState B × Option V :=
  ((LogError (α := Unit) Str s).1, none)

/-- The member `NumberExprAST::codegen`. -/
def NumberExprAST.codegen {B V D : Type} (irb : IRBuilder B V D) (Val : D) : Codegen B V :=
  fun s => (s, some (irb.ConstantFP Val))

/-- The member `BinaryExprAST::codegen`, for the `codegen()` of its two
operands: `L = LHS->codegen()`, then `R = RHS->codegen()`, the null test, and
the `switch` on `Op`. -/
def BinaryExprAST.codegen {B V D : Type} (irb : IRBuilder B V D) (Op : Char)
    (LHS RHS : Codegen B V) : Codegen B V :=
  fun s =>
    let l := LHS s
    let r := RHS l.1
    match l.2, r.2 with
    | some L, some R =>
      if Op = '+' then
        let c := irb.CreateFAdd r.1.builder L R "addtmp"
        (⟨c.1, r.1.stderr⟩, some c.2)
      else if Op = '-' then
        let c := irb.CreateFSub r.1.builder L R "subtmp"
        (⟨c.1, r.1.stderr⟩, some c.2)
      else if Op = '*' then
        let c := irb.CreateFMul r.1.builder L R "multmp"
        (⟨c.1, r.1.stderr⟩, some c.2)
      else if Op = '<' then
        let c := irb.CreateFCmpULT r.1.builder L R "cmptmp"
        let u := irb.CreateUIToFP c.1 c.2 "booltmp"
        (⟨u.1, r.1.stderr⟩, some u.2)
      else LogErrorV "invalid binary operator" r.1
    | _, _ => (r.1, none)

/-- The expression nodes `toy.cpp` declares under `ExprAST`. -/
inductive ExprAST (D : Type) where
  | NumberExprAST (Val : D)
  | BinaryExprAST (Op : Char) (LHS RHS : ExprAST D)

/-- The virtual member `ExprAST::codegen`, by the class of the node. -/
def ExprAST.codegen {B V D : Type} (irb : IRBuilder B V D) : ExprAST D → Codegen B V
  | .NumberExprAST Val => NumberExprAST.codegen irb Val
  | .BinaryExprAST Op LHS RHS =>
    BinaryExprAST.codegen irb Op (ExprAST.codegen irb LHS) (ExprAST.codegen irb RHS)

/-- A builder that writes every instruction down: the builder holds the names
of the instructions emitted, a value is the name it was given. -/
def namedBuilder : IRBuilder (List String) String String where
  ConstantFP := fun d => d
  CreateFAdd := fun b _ _ name => (b ++ [name], name)
  CreateFSub := fun b _ _ name => (b ++ [name], name)
  CreateFMul := fun b _ _ name => (b ++ [name], name)
  CreateFCmpULT := fun b _ _ name => (b ++ [name], name)
  CreateUIToFP := fun b _ name => (b ++ [name], name)

/-- The message `LogErrorV("invalid binary operator")` writes. -/
def invalidOperatorMessage : String := "Error: invalid binary operator\n"

/-- The operators the `switch` of `BinaryExprAST::codegen` has a case for. -/
def knownOperators : List Char := ['+', '-', '*', '<']

/-- The state left once both operands have been evaluated: the left one
first, the right one on the state the left one left. -/
def afterOperands {B V : Type} (LHS RHS : Codegen B V) (s : CodegenState B) : CodegenState B :=
  (RHS (LHS s).1).1

/-- The value of the left operand. -/
def leftValue {B V : Type} (LHS : Codegen B V) (s : CodegenState B) : Option V :=
  (LHS s).2

/-- The value of the right operand, evaluated after the left one. -/
def rightValue {B V : Type} (LHS RHS : Codegen B V) (s : CodegenState B) : Option V :=
  (RHS (LHS s).1).2

/-- The expression `1 / 2`: a node whose operator has no case in the `switch`,
so that its `codegen()` returns `nullptr`. -/
def nullOperand : ExprAST String :=
  .BinaryExprAST '/' (.NumberExprAST "1") (.NumberExprAST "2")

/-- The expression `(1 / 2) / 3`. -/
def nullOperandOuter : ExprAST String :=
  .BinaryExprAST '/' nullOperand (.NumberExprAST "3")

/-- The state of a fresh builder with nothing written to `stderr`. -/
def emptyState : CodegenState (List String) := ⟨[], []⟩

end Kaleidoscope

namespace Sopho

/-! ## Lemmas on the compile loop -/

theorem compileAll_cons_ok {W : Type} (ctx : CxxContext) (exec : Exec W) (s : String)
    (rest : List String) (w w1 : W) (h : exec w (compileCommand ctx s) = (w1, .exited 0)) :
    compileAll ctx exec (s :: rest) w =
      ((compileAll ctx exec rest w1).1,
        compileStepOf ctx s (.exited 0) :: (compileAll ctx exec rest w1).2.1,
        (compileAll ctx exec rest w1).2.2) := by
  rw [compileAll, h]
  simp [compileStepOf]

theorem compileAll_cons_fail {W : Type} (ctx : CxxContext) (exec : Exec W) (s : String)
    (rest : List String) (w w1 : W) (n : Int) (hn : n ≠ 0)
    (h : exec w (compileCommand ctx s) = (w1, .exited n)) :
    compileAll ctx exec (s :: rest) w =
      (w1, [compileStepOf ctx s (.exited n)], some (.CompileFailure s)) := by
  rw [compileAll, h]
  simp [compileStepOf, hn]

theorem compileAll_cons_spawn {W : Type} (ctx : CxxContext) (exec : Exec W) (s : String)
    (rest : List String) (w w1 : W) (h : exec w (compileCommand ctx s) = (w1, .spawnFailed)) :
    compileAll ctx exec (s :: rest) w =
      (w1, [compileStepOf ctx s .spawnFailed], some .ProcessSpawnFailure) := by
  rw [compileAll, h]
  simp [compileStepOf]

/-- The three ways the compile of the first source can end. -/
theorem exec_cases {W : Type} (exec : Exec W) (w : W) (cmd : String) :
    (∃ w1, exec w cmd = (w1, .exited 0)) ∨
    (∃ w1 n, n ≠ 0 ∧ exec w cmd = (w1, .exited n)) ∨
    (∃ w1, exec w cmd = (w1, .spawnFailed)) := by
  rcases h : exec w cmd with ⟨w1, r⟩
  cases r with
  | exited n =>
    by_cases hn : n = 0
    · subst hn; exact Or.inl ⟨w1, rfl⟩
    · exact Or.inr (Or.inl ⟨w1, n, hn, rfl⟩)
  | spawnFailed => exact Or.inr (Or.inr ⟨w1, rfl⟩)

/-- Every step of the compile loop is a compile invocation. -/
theorem compileAll_isCompile {W : Type} (ctx : CxxContext) (exec : Exec W) (srcs : List String) :
    ∀ w, ∀ s ∈ (compileAll ctx exec srcs w).2.1, s.inv.isCompile = true := by
  induction srcs with
  | nil => intro w s hs; simp [compileAll] at hs
  | cons a rest ih =>
    intro w s hs
    rcases exec_cases exec w (compileCommand ctx a) with ⟨w1, h⟩ | ⟨w1, n, hn, h⟩ | ⟨w1, h⟩
    · rw [compileAll_cons_ok ctx exec a rest w w1 h] at hs
      simp only [List.mem_cons] at hs
      rcases hs with rfl | hs
      · rfl
      · exact ih w1 s hs
    · rw [compileAll_cons_fail ctx exec a rest w w1 n hn h] at hs
      simp only [List.mem_singleton] at hs
      subst hs; rfl
    · rw [compileAll_cons_spawn ctx exec a rest w w1 h] at hs
      simp only [List.mem_singleton] at hs
      subst hs; rfl

/-- A compile loop whose steps all exited with status 0 went through every
source, in order, and reports no error. -/
theorem compileAll_all_ok {W : Type} (ctx : CxxContext) (exec : Exec W) (srcs : List String) :
    ∀ w, (∀ s ∈ (compileAll ctx exec srcs w).2.1, s.result = .exited 0) →
      (compileAll ctx exec srcs w).2.2 = none ∧
      (compileAll ctx exec srcs w).2.1 = srcs.map (fun s => compileStepOf ctx s (.exited 0)) := by
  induction srcs with
  | nil => intro w _; simp [compileAll]
  | cons a rest ih =>
    intro w hall
    rcases exec_cases exec w (compileCommand ctx a) with ⟨w1, h⟩ | ⟨w1, n, hn, h⟩ | ⟨w1, h⟩
    · rw [compileAll_cons_ok ctx exec a rest w w1 h] at hall ⊢
      have ih1 := ih w1 (fun s hs => hall s (List.mem_cons_of_mem _ hs))
      simp only [List.map_cons]
      exact ⟨ih1.1, by rw [ih1.2]⟩
    · rw [compileAll_cons_fail ctx exec a rest w w1 n hn h] at hall
      have := hall _ (List.mem_singleton_self _)
      simp [compileStepOf] at this
      exact absurd this hn
    · rw [compileAll_cons_spawn ctx exec a rest w w1 h] at hall
      have := hall _ (List.mem_singleton_self _)
      simp [compileStepOf] at this

/-- A compile step that did not exit with status 0 is the last step of the
compile loop, and the loop reports the error of that step. -/
theorem compileAll_failfast {W : Type} (ctx : CxxContext) (exec : Exec W) (srcs : List String) :
    ∀ w pre st post, (compileAll ctx exec srcs w).2.1 = pre ++ st :: post →
      st.result ≠ .exited 0 →
      post = [] ∧ ∃ src, st.inv = .compile src ∧ src ∈ srcs ∧
        (compileAll ctx exec srcs w).2.2 =
          some (match st.result with
            | .exited _ => .CompileFailure src
            | .spawnFailed => .ProcessSpawnFailure) := by
  induction srcs with
  | nil => intro w pre st post h; simp [compileAll] at h
  | cons a rest ih =>
    intro w pre st post hsteps hbad
    rcases exec_cases exec w (compileCommand ctx a) with ⟨w1, h⟩ | ⟨w1, n, hn, h⟩ | ⟨w1, h⟩
    · rw [compileAll_cons_ok ctx exec a rest w w1 h] at hsteps ⊢
      cases pre with
      | nil =>
        simp only [List.nil_append, List.cons.injEq] at hsteps
        rw [← hsteps.1] at hbad
        exact absurd rfl hbad
      | cons p pre1 =>
        simp only [List.cons_append, List.cons.injEq] at hsteps
        obtain ⟨hp, src, h1, h2, h3⟩ := ih w1 pre1 st post hsteps.2 hbad
        exact ⟨hp, src, h1, List.mem_cons_of_mem _ h2, h3⟩
    · rw [compileAll_cons_fail ctx exec a rest w w1 n hn h] at hsteps ⊢
      cases pre with
      | nil =>
        simp only [List.nil_append, List.cons.injEq] at hsteps
        obtain ⟨h1, h2⟩ := hsteps
        subst h1
        exact ⟨h2.symm, a, rfl, List.mem_cons_self _ _, rfl⟩
      | cons p pre1 => simp at hsteps
    · rw [compileAll_cons_spawn ctx exec a rest w w1 h] at hsteps ⊢
      cases pre with
      | nil =>
        simp only [List.nil_append, List.cons.injEq] at hsteps
        obtain ⟨h1, h2⟩ := hsteps
        subst h1
        exact ⟨h2.symm, a, rfl, List.mem_cons_self _ _, rfl⟩
      | cons p pre1 => simp at hsteps

/-- A compile loop that reports no error saw every step exit with status 0. -/
theorem compileAll_none_ok {W : Type} (ctx : CxxContext) (exec : Exec W) (srcs : List String) :
    ∀ w, (compileAll ctx exec srcs w).2.2 = none →
      ∀ s ∈ (compileAll ctx exec srcs w).2.1, s.result = .exited 0 := by
  induction srcs with
  | nil => intro w _ s hs; simp [compileAll] at hs
  | cons a rest ih =>
    intro w hnone s hs
    rcases exec_cases exec w (compileCommand ctx a) with ⟨w1, h⟩ | ⟨w1, n, hn, h⟩ | ⟨w1, h⟩
    · rw [compileAll_cons_ok ctx exec a rest w w1 h] at hnone hs
      simp only [List.mem_cons] at hs
      rcases hs with rfl | hs
      · rfl
      · exact ih w1 hnone s hs
    · rw [compileAll_cons_fail ctx exec a rest w w1 n hn h] at hnone
      simp at hnone
    · rw [compileAll_cons_spawn ctx exec a rest w w1 h] at hnone
      simp at hnone

/-! ## Lemmas on the resolver -/

theorem linkStep_inv {W : Type} (ctx : CxxContext) (exec : Exec W) (t : TargetDeclaration)
    (w : W) :
    (linkStep ctx exec t w).2.1.inv = .link (t.sources.map (objectPathFor ctx)) t.target ∧
    (linkStep ctx exec t w).2.1.command =
      linkCommand ctx (t.sources.map (objectPathFor ctx)) t.target := by
  unfold linkStep
  simp only
  split <;> exact ⟨rfl, rfl⟩

theorem resolve_of_some {W : Type} (ctx : CxxContext) (exec : Exec W) (t : TargetDeclaration)
    (w : W) (e : BuildError) (h : (compileAll ctx exec t.sources w).2.2 = some e) :
    (resolve ctx exec t w).steps = (compileAll ctx exec t.sources w).2.1 ∧
    (resolve ctx exec t w).result = .Failed e := by
  unfold resolve
  rcases hc : compileAll ctx exec t.sources w with ⟨w1, steps, r⟩
  rw [hc] at h
  simp only at h
  subst h
  simp

theorem resolve_of_none {W : Type} (ctx : CxxContext) (exec : Exec W) (t : TargetDeclaration)
    (w : W) (h : (compileAll ctx exec t.sources w).2.2 = none) :
    (resolve ctx exec t w).steps =
      (compileAll ctx exec t.sources w).2.1 ++
        [(linkStep ctx exec t (compileAll ctx exec t.sources w).1).2.1] ∧
    (resolve ctx exec t w).result =
      (linkStep ctx exec t (compileAll ctx exec t.sources w).1).2.2 := by
  unfold resolve
  rcases hc : compileAll ctx exec t.sources w with ⟨w1, steps, r⟩
  rw [hc] at h
  simp only at h
  subst h
  simp

theorem build_of_nonempty {W : Type} (ctx : CxxContext) (exec : Exec W) (t : Target) (w : W)
    (h : t.Dependent ≠ []) :
    CxxBuilder.build ctx exec t w = resolve ctx exec ⟨t.target, t.Dependent, h⟩ w := by
  simp [CxxBuilder.build, declare, h]

theorem build_of_empty {W : Type} (ctx : CxxContext) (exec : Exec W) (t : Target) (w : W)
    (h : t.Dependent = []) :
    CxxBuilder.build ctx exec t w = ⟨w, [], .Failed .InvalidDeclaration⟩ := by
  simp [CxxBuilder.build, declare, h]

/-- The record of a build of a target with at least one source, all of whose
compile steps exited with status 0: the compile of every source, in
declaration order, then the link over the object paths in that order. -/
theorem build_steps_of_all_ok {W : Type} (ctx : CxxContext) (exec : Exec W) (t : Target)
    (w : W) (hne : t.Dependent ≠ [])
    (hok : ∀ s ∈ (CxxBuilder.build ctx exec t w).steps,
      s.inv.isCompile = true → s.result = .exited 0) :
    ∃ r, (CxxBuilder.build ctx exec t w).steps =
      t.Dependent.map (fun s => compileStepOf ctx s (.exited 0)) ++
        [⟨.link (t.Dependent.map (objectPathFor ctx)) t.target,
          linkCommand ctx (t.Dependent.map (objectPathFor ctx)) t.target, r⟩] := by
  rw [build_of_nonempty ctx exec t w hne] at hok ⊢
  set d : TargetDeclaration := ⟨t.target, t.Dependent, hne⟩ with hd
  have hcomp := compileAll_isCompile ctx exec d.sources w
  cases he : (compileAll ctx exec d.sources w).2.2 with
  | some e =>
    exfalso
    have hs := (resolve_of_some ctx exec d w e he).1
    rw [hs] at hok
    have := (compileAll_all_ok ctx exec d.sources w (fun s h => hok s h (hcomp s h))).1
    rw [this] at he
    cases he
  | none =>
    have hs := (resolve_of_none ctx exec d w he).1
    have hall := compileAll_all_ok ctx exec d.sources w (compileAll_none_ok ctx exec d.sources w he)
    have hl := linkStep_inv ctx exec d (compileAll ctx exec d.sources w).1
    rw [hs, hall.2]
    have hsrc : d.sources = t.Dependent := rfl
    have htgt : d.target = t.target := rfl
    rw [hsrc, htgt] at hl
    rw [hsrc]
    refine ⟨(linkStep ctx exec d (compileAll ctx exec t.Dependent w).1).2.1.result, ?_⟩
    congr 1
    rw [← hl.1, ← hl.2]

theorem isLink_of_isCompile (i : Invocation) (h : i.isCompile = true) : i.isLink = false := by
  cases i with
  | compile s => rfl
  | link o a => simp [Invocation.isCompile] at h

/-- The record of a build in which a compile step exited with a non-zero
status: that step is the last one, no step is a link, and the build fails with
the compile failure of that source. -/
theorem build_steps_of_compile_failure {W : Type} (ctx : CxxContext) (exec : Exec W)
    (t : Target) (w : W) (pre post : List Step) (st : Step) (n : Int)
    (hsteps : (CxxBuilder.build ctx exec t w).steps = pre ++ st :: post)
    (hc : st.inv.isCompile = true) (hst : st.result = .exited n) (hn : n ≠ 0) :
    post = [] ∧ (∀ s ∈ (CxxBuilder.build ctx exec t w).steps, s.inv.isLink = false) ∧
      ∃ src, st.inv = .compile src ∧ src ∈ t.Dependent ∧
        (CxxBuilder.build ctx exec t w).result = .Failed (.CompileFailure src) := by
  by_cases hne : t.Dependent = []
  · rw [build_of_empty ctx exec t w hne] at hsteps
    simp at hsteps
  rw [build_of_nonempty ctx exec t w hne] at hsteps ⊢
  set d : TargetDeclaration := ⟨t.target, t.Dependent, hne⟩ with hd
  have hcomp := compileAll_isCompile ctx exec d.sources w
  have hbad : st.result ≠ .exited 0 := by
    rw [hst]; intro h; injection h with h; exact hn h
  cases he : (compileAll ctx exec d.sources w).2.2 with
  | some e =>
    obtain ⟨hs, hr⟩ := resolve_of_some ctx exec d w e he
    rw [hs] at hsteps ⊢
    obtain ⟨hp, src, h1, h2, h3⟩ := compileAll_failfast ctx exec d.sources w pre st post hsteps hbad
    refine ⟨hp, fun s h => isLink_of_isCompile _ (hcomp s h), src, h1, h2, ?_⟩
    rw [hr]
    rw [he, hst] at h3
    simp only [Option.some.injEq] at h3
    rw [h3]
  | none =>
    exfalso
    have hs := (resolve_of_none ctx exec d w he).1
    have hl := (linkStep_inv ctx exec d (compileAll ctx exec d.sources w).1).1
    have hmem : st ∈ (resolve ctx exec d w).steps := by rw [hsteps]; simp
    rw [hs, List.mem_append, List.mem_singleton] at hmem
    rcases hmem with hm | hm
    · exact hbad (compileAll_none_ok ctx exec d.sources w he st hm)
    · rw [hm, hl] at hc
      simp [Invocation.isCompile] at hc

/-! ## The claims on the build driver -/

/-- C3: for a target with `N ≥ 1` sources, a build all of whose compile steps
exit with status 0 issues the `N` compile invocations, one per source in
declaration order, and then one link invocation, over the object paths of the
sources in declaration order; nothing else is issued. -/
theorem build_compiles_then_links {W : Type} (ctx : CxxContext) (exec : Exec W) (t : Target)
    (w : W) (hN : 1 ≤ t.Dependent.length)
    (hok : ∀ s ∈ (CxxBuilder.build ctx exec t w).steps,
      s.inv.isCompile = true → s.result = .exited 0) :
    (CxxBuilder.build ctx exec t w).steps.map Step.inv =
        t.Dependent.map Invocation.compile ++
          [.link (t.Dependent.map (objectPathFor ctx)) t.target] ∧
    (CxxBuilder.build ctx exec t w).steps.map Step.command =
        t.Dependent.map (compileCommand ctx) ++
          [linkCommand ctx (t.Dependent.map (objectPathFor ctx)) t.target] ∧
    ((CxxBuilder.build ctx exec t w).steps.filter (fun s => s.inv.isCompile)).length =
        t.Dependent.length ∧
    ((CxxBuilder.build ctx exec t w).steps.filter (fun s => s.inv.isLink)).length = 1 := by
  have hne : t.Dependent ≠ [] := by
    intro h; rw [h] at hN; simp at hN
  obtain ⟨r, hr⟩ := build_steps_of_all_ok ctx exec t w hne hok
  rw [hr]
  refine ⟨?_, ?_, ?_, ?_⟩
  · simp [compileStepOf, Function.comp_def]
  · simp [compileStepOf, Function.comp_def]
  · simp [List.filter_append, compileStepOf, Invocation.isCompile, List.filter_map,
      Function.comp_def]
  · simp [List.filter_append, compileStepOf, Invocation.isLink, List.filter_map,
      Function.comp_def]

/-- Witness of C3: a target with three sources under `ClContext`, in an
environment where every process succeeds. -/
theorem build_compiles_then_links_witness :
    1 ≤ (Target.mk "app" ["a.cpp", "b.cpp", "c.cpp"]).Dependent.length ∧
    (CxxBuilder.build ClContext allSucceed ⟨"app", ["a.cpp", "b.cpp", "c.cpp"]⟩ ()).steps.map
        Step.inv =
      [.compile "a.cpp", .compile "b.cpp", .compile "c.cpp",
        .link ["build/a.obj", "build/b.obj", "build/c.obj"] "app"] :=
  ⟨by decide,
    (build_compiles_then_links ClContext allSucceed ⟨"app", ["a.cpp", "b.cpp", "c.cpp"]⟩ ()
      (by decide) (by decide)).1⟩

/-- C4: when the compile step of a source exits with a non-zero status, that
step is the last process of the build (no further compile), no link invocation
is issued for the target, and the build reports the failure of that source. -/
theorem build_fails_fast {W : Type} (ctx : CxxContext) (exec : Exec W) (t : Target) (w : W)
    (pre post : List Step) (st : Step) (n : Int)
    (hsteps : (CxxBuilder.build ctx exec t w).steps = pre ++ st :: post)
    (hc : st.inv.isCompile = true) (hst : st.result = .exited n) (hn : n ≠ 0) :
    post = [] ∧
    (∀ s ∈ (CxxBuilder.build ctx exec t w).steps, s.inv.isLink = false) ∧
    (CxxBuilder.build ctx exec t w).result ≠ .Succeeded ∧
    ∃ src, st.inv = .compile src ∧ src ∈ t.Dependent ∧
      (CxxBuilder.build ctx exec t w).result = .Failed (.CompileFailure src) := by
  obtain ⟨hp, hl, src, h1, h2, h3⟩ :=
    build_steps_of_compile_failure ctx exec t w pre post st n hsteps hc hst hn
  exact ⟨hp, hl, by rw [h3]; exact fun h => BuildResult.noConfusion h, src, h1, h2, h3⟩

/-- Witness of C4: three sources, the compile of the second one exits with
status 1; the third source is not compiled and nothing is linked. -/
theorem build_fails_fast_witness :
    (CxxBuilder.build GxxContext (failAt 1) ⟨"app", ["a.cpp", "b.cpp", "c.cpp"]⟩ 0).steps =
      [⟨.compile "a.cpp", "g++ -c a.cpp -o build/a.o", .exited 0⟩] ++
        ⟨.compile "b.cpp", "g++ -c b.cpp -o build/b.o", .exited 1⟩ :: [] ∧
    (CxxBuilder.build GxxContext (failAt 1) ⟨"app", ["a.cpp", "b.cpp", "c.cpp"]⟩ 0).result ≠
      .Succeeded :=
  ⟨by decide,
    (build_fails_fast GxxContext (failAt 1) ⟨"app", ["a.cpp", "b.cpp", "c.cpp"]⟩ 0
      [⟨.compile "a.cpp", "g++ -c a.cpp -o build/a.o", .exited 0⟩] []
      ⟨.compile "b.cpp", "g++ -c b.cpp -o build/b.o", .exited 1⟩ 1
      (by decide) (by decide) (by decide) (by decide)).2.2.1⟩

/-- C5: `GxxContext` holds the compiler `g++`, the object flag ` -o `, the
object extension `.o`, the output directory `build/` and the link flag ` -o `;
under it, the target `app` with the sources `a.cpp`, `b.cpp`
issues, when its compile steps succeed, the commands
`g++ -c a.cpp -o build/a.o`, then `g++ -c b.cpp -o build/b.o`, then one link
command over `build/a.o build/b.o`, in that order, into `app`. -/
theorem gxx_app_commands {W : Type} (exec : Exec W) (w : W)
    (hok : ∀ s ∈ (CxxBuilder.build GxxContext exec ⟨"app", ["a.cpp", "b.cpp"]⟩ w).steps,
      s.inv.isCompile = true → s.result = .exited 0) :
    GxxContext.cxx = "g++" ∧ GxxContext.obj_prefix = " -o " ∧ GxxContext.obj_postfix = ".o" ∧
    GxxContext.build_prefix = "build/" ∧ GxxContext.bin_prefix = " -o " ∧
    (CxxBuilder.build GxxContext exec ⟨"app", ["a.cpp", "b.cpp"]⟩ w).steps.map Step.command =
      ["g++ -c a.cpp -o build/a.o", "g++ -c b.cpp -o build/b.o",
        "g++ build/a.o build/b.o -o app `llvm-config --cxxflags --ldflags --system-libs --libs all`"] ∧
    (CxxBuilder.build GxxContext exec ⟨"app", ["a.cpp", "b.cpp"]⟩ w).steps.map Step.inv =
      [.compile "a.cpp", .compile "b.cpp", .link ["build/a.o", "build/b.o"] "app"] := by
  obtain ⟨r, hr⟩ := build_steps_of_all_ok GxxContext exec ⟨"app", ["a.cpp", "b.cpp"]⟩ w
    (by decide) hok
  rw [hr]
  exact ⟨rfl, rfl, rfl, rfl, rfl, rfl, rfl⟩

/-- Witness of C5: the environment in which every process succeeds. -/
theorem gxx_app_commands_witness :
    (CxxBuilder.build GxxContext allSucceed ⟨"app", ["a.cpp", "b.cpp"]⟩ ()).steps.map
        Step.command =
      ["g++ -c a.cpp -o build/a.o", "g++ -c b.cpp -o build/b.o",
        "g++ build/a.o build/b.o -o app `llvm-config --cxxflags --ldflags --system-libs --libs all`"] :=
  (gxx_app_commands allSucceed () (by decide)).2.2.2.2.2.1

theorem cl_compileCommand (s : String) :
    compileCommand ClContext s =
      "cl /std:c++17 -c " ++ s ++ " /Fo:" ++ objectPathFor ClContext s := by
  have h : ("cl" : String) ++ flagString ["/std:c++17"] ++ " -c " = "cl /std:c++17 -c " := by
    decide
  simp only [compileCommand, ClContext]
  rw [h]

theorem cl_linkCommand (objects : List String) (artifact : String) :
    linkCommand ClContext objects artifact =
      "cl" ++ flagString objects ++ " /Fe:" ++ artifact := by
  have h : flagString [] = "" := by decide
  simp only [linkCommand, ClContext]
  rw [h, String.append_empty]

/-- C6: under `ClContext` every object path ends in `.obj` and is introduced in
the compile command by ` /Fo:`, the link command names the artifact with
` /Fe:`, and a build whose compile steps succeed hands the link step the object
paths of the sources in declaration order, the order `GxxContext` uses too
(object `i` of either context is derived from source `i`). -/
theorem cl_naming_and_link_order {W : Type} (exec : Exec W) (t : Target) (w : W)
    (hN : 1 ≤ t.Dependent.length)
    (hok : ∀ s ∈ (CxxBuilder.build ClContext exec t w).steps,
      s.inv.isCompile = true → s.result = .exited 0) :
    ClContext.obj_prefix = " /Fo:" ∧ ClContext.obj_postfix = ".obj" ∧
    ClContext.bin_prefix = " /Fe:" ∧
    (∀ s, objectPathFor ClContext s = "build/" ++ stripExtension s ++ ".obj") ∧
    (∀ s, compileCommand ClContext s =
      "cl /std:c++17 -c " ++ s ++ " /Fo:" ++ objectPathFor ClContext s) ∧
    (∀ objects artifact, linkCommand ClContext objects artifact =
      "cl" ++ flagString objects ++ " /Fe:" ++ artifact) ∧
    (CxxBuilder.build ClContext exec t w).steps.map Step.inv =
      t.Dependent.map Invocation.compile ++
        [.link (t.Dependent.map (fun s => "build/" ++ stripExtension s ++ ".obj")) t.target] ∧
    (∀ (V : Type) (exec2 : Exec V) (v : V),
      (∀ s ∈ (CxxBuilder.build GxxContext exec2 t v).steps,
        s.inv.isCompile = true → s.result = .exited 0) →
      (CxxBuilder.build GxxContext exec2 t v).steps.map Step.inv =
        t.Dependent.map Invocation.compile ++
          [.link (t.Dependent.map (fun s => "build/" ++ stripExtension s ++ ".o")) t.target]) := by
  have hne : t.Dependent ≠ [] := by
    intro h; rw [h] at hN; simp at hN
  refine ⟨rfl, rfl, rfl, fun s => rfl, cl_compileCommand, cl_linkCommand, ?_, ?_⟩
  · obtain ⟨r, hr⟩ := build_steps_of_all_ok ClContext exec t w hne hok
    rw [hr]
    simp [compileStepOf, Function.comp_def, objectPathFor, ClContext]
  · intro V exec2 v hok2
    obtain ⟨r, hr⟩ := build_steps_of_all_ok GxxContext exec2 t v hne hok2
    rw [hr]
    simp [compileStepOf, Function.comp_def, objectPathFor, GxxContext]

/-- Witness of C6: the declaration of `app` over `a.cpp`, `b.cpp` under
`ClContext`, every process succeeding. -/
theorem cl_naming_and_link_order_witness :
    (CxxBuilder.build ClContext allSucceed ⟨"app", ["a.cpp", "b.cpp"]⟩ ()).steps.map Step.inv =
      [.compile "a.cpp", .compile "b.cpp", .link ["build/a.obj", "build/b.obj"] "app"] ∧
    (CxxBuilder.build ClContext allSucceed ⟨"app", ["a.cpp", "b.cpp"]⟩ ()).steps.map
        Step.command =
      ["cl /std:c++17 -c a.cpp /Fo:build/a.obj", "cl /std:c++17 -c b.cpp /Fo:build/b.obj",
        "cl build/a.obj build/b.obj /Fe:app"] :=
  ⟨(cl_naming_and_link_order allSucceed ⟨"app", ["a.cpp", "b.cpp"]⟩ () (by decide)
      (by decide)).2.2.2.2.2.2.1,
    by decide⟩

/-- C7: a target declared with no source is rejected as an
`InvalidDeclaration`; its build issues no process at all (no compile, no link
over an empty object list), leaves the world as it was and fails. -/
theorem empty_target_rejected {W : Type} (ctx : CxxContext) (exec : Exec W) (name : String)
    (w : W) :
    declare ⟨name, []⟩ = .error .InvalidDeclaration ∧
    (CxxBuilder.build ctx exec ⟨name, []⟩ w).steps = [] ∧
    (CxxBuilder.build ctx exec ⟨name, []⟩ w).result = .Failed .InvalidDeclaration ∧
    (CxxBuilder.build ctx exec ⟨name, []⟩ w).world = w := by
  refine ⟨?_, ?_, ?_, ?_⟩
  · simp [declare]
  all_goals rw [build_of_empty ctx exec ⟨name, []⟩ w rfl]

/-- C1: whatever builder `main` is linked with and whatever the build of `Sob`
reports, `main` calls the build of `Sob` and then the build of `Toy`, the
second on the world the first one left: the session holds the processes and
the terminal state of both calls, in that order, and a builder that writes its
calls down has been called for `Sob`, then for `Toy`, also when the build of
`Sob` fails. -/
theorem main_builds_toy_after_sob {W : Type} (build : CxxContext → Target → W → Run W)
    (ctx : CxxContext) (w : W) :
    (mainWith build ctx w).steps =
      (build ctx Sob w).steps ++ (build ctx Toy (build ctx Sob w).world).steps ∧
    (mainWith build ctx w).results =
      [(build ctx Sob w).result, (build ctx Toy (build ctx Sob w).world).result] ∧
    (mainWith build ctx w).world = (build ctx Toy (build ctx Sob w).world).world ∧
    (∀ outcome log, (mainWith (logCalls outcome) ctx log).world =
      log ++ [(ctx, Sob), (ctx, Toy)]) ∧
    (mainWith (logCalls sobFails) ctx []).results =
      [.Failed (.CompileFailure "sob.cpp"), .Succeeded] ∧
    (mainWith (logCalls sobFails) ctx []).world = [(ctx, Sob), (ctx, Toy)] := by
  refine ⟨rfl, rfl, rfl, ?_, ?_, rfl⟩
  · intro outcome log
    simp [mainWith, logCalls]
  · simp only [mainWith, logCalls, sobFails, SobSource]
    have h : Toy ≠ Sob := by decide
    simp [h]

/-- With the builder of the specification, the compile of `toy.cpp` is issued
in every environment, whatever the processes of `Sob` report. -/
theorem main_always_compiles_toy {W : Type} (ctx : CxxContext) (exec : Exec W) (w : W) :
    ∃ r, (⟨.compile "toy.cpp", compileCommand ctx "toy.cpp", r⟩ : Step) ∈
      (main ctx exec w).steps := by
  have key : ∀ v, ∃ r, (⟨.compile "toy.cpp", compileCommand ctx "toy.cpp", r⟩ : Step) ∈
      (CxxBuilder.build ctx exec Toy v).steps := by
    intro v
    have hne : Toy.Dependent ≠ [] := by decide
    rw [build_of_nonempty ctx exec Toy v hne]
    have hsrc : Toy.Dependent = ["toy.cpp"] := rfl
    have hhead : ∃ r rest, (compileAll ctx exec ["toy.cpp"] v).2.1 =
        (⟨.compile "toy.cpp", compileCommand ctx "toy.cpp", r⟩ : Step) :: rest := by
      rcases exec_cases exec v (compileCommand ctx "toy.cpp") with ⟨w1, h⟩ | ⟨w1, n, hn, h⟩ | ⟨w1, h⟩
      · exact ⟨_, _, by rw [compileAll_cons_ok ctx exec _ _ v w1 h]; rfl⟩
      · exact ⟨_, _, by rw [compileAll_cons_fail ctx exec _ _ v w1 n hn h]; rfl⟩
      · exact ⟨_, _, by rw [compileAll_cons_spawn ctx exec _ _ v w1 h]; rfl⟩
    obtain ⟨r, rest, hr⟩ := hhead
    refine ⟨r, ?_⟩
    cases he : (compileAll ctx exec (TargetDeclaration.mk Toy.target Toy.Dependent hne).sources
        v).2.2 with
    | some e =>
      rw [(resolve_of_some ctx exec _ v e he).1]
      show _ ∈ (compileAll ctx exec ["toy.cpp"] v).2.1
      rw [hr]; exact List.mem_cons_self _ _
    | none =>
      rw [(resolve_of_none ctx exec _ v he).1]
      apply List.mem_append_left
      show _ ∈ (compileAll ctx exec ["toy.cpp"] v).2.1
      rw [hr]; exact List.mem_cons_self _ _
  obtain ⟨r, hr⟩ := key (CxxBuilder.build ctx exec Sob w).world
  exact ⟨r, List.mem_append_right _ hr⟩

/-- C2, as stated, fails: in a session where the build of `Sob` fails and the
build of `Toy` succeeds, `main` returns the exit status it returns when both
builds succeed. -/
theorem main_exit_status_hides_failure :
    (mainWith (logCalls sobFails) GxxContext []).results =
      [.Failed (.CompileFailure "sob.cpp"), .Succeeded] ∧
    (mainWith (logCalls noneFails) GxxContext []).results = [.Succeeded, .Succeeded] ∧
    (mainWith (logCalls sobFails) GxxContext []).exitCode =
      (mainWith (logCalls noneFails) GxxContext []).exitCode := by
  decide

/-- The same session with the builder of the specification: the compile of
`sob.cpp` exits with status 1, `toy` is built, and `main` returns 0 as it does
when every process succeeds. -/
theorem main_partial_failure_run :
    (main GxxContext (failAt 0) 0).results =
      [.Failed (.CompileFailure "sob.cpp"), .Succeeded] ∧
    (main GxxContext (failAt 0) 0).steps.map Step.inv =
      [.compile "sob.cpp", .compile "toy.cpp", .link ["build/toy.o"] "toy"] ∧
    (main GxxContext (failAt 0) 0).exitCode = 0 ∧
    (main GxxContext allSucceed ()).results = [.Succeeded, .Succeeded] ∧
    (main GxxContext allSucceed ()).exitCode = 0 := by
  decide

/-- C2, amended: `main` does not read what its builds report and returns the
exit status 0 in every session, with every builder and whatever the terminal
states of the two builds are. -/
theorem main_returns_zero {W : Type} (build : CxxContext → Target → W → Run W)
    (ctx : CxxContext) (w : W) :
    (mainWith build ctx w).exitCode = 0 ∧
    (mainWith build ctx w).results.length = 2 :=
  ⟨rfl, rfl⟩

/-- C8: the manifest of the driver: every target has at least one source, the
artifact names are `sob` and `toy`, pairwise distinct, and no source is listed
by two different targets. -/
theorem manifest_invariants :
    manifest = [Sob, Toy] ∧
    (∀ t ∈ manifest, t.Dependent ≠ []) ∧
    manifest.map Target.target = ["sob", "toy"] ∧
    (manifest.map Target.target).Nodup ∧
    (∀ t1 ∈ manifest, ∀ t2 ∈ manifest, t1 ≠ t2 →
      ∀ s ∈ t1.Dependent, s ∉ t2.Dependent) := by
  refine ⟨rfl, by decide, by decide, by decide, by decide⟩

/-- C9: the preprocessor block selects one context, `ClContext` under MSVC and
`GxxContext` under a GNU compiler (and none otherwise, when the driver does not
compile); `main` hands that one context to every build; under either context
it builds the targets of the manifest, `Sob` then `Toy`; both contexts name
the build-output directory `build/`. -/
theorem context_switch_keeps_sequence :
    (∀ gnuc, selectContext true gnuc = some ClContext) ∧
    selectContext false true = some GxxContext ∧
    selectContext false false = none ∧
    (∀ msc_ver gnuc ctx, selectContext msc_ver gnuc = some ctx →
      ctx = ClContext ∨ ctx = GxxContext) ∧
    (∀ ctx outcome, (mainWith (logCalls outcome) ctx []).world = [(ctx, Sob), (ctx, Toy)]) ∧
    (∀ outcome, (mainWith (logCalls outcome) GxxContext []).world.map Prod.snd = manifest ∧
      (mainWith (logCalls outcome) ClContext []).world.map Prod.snd = manifest) ∧
    (∀ ctx outcome, ∀ c ∈ (mainWith (logCalls outcome) ctx []).world, c.1 = ctx) ∧
    GxxContext.build_prefix = "build/" ∧ ClContext.build_prefix = "build/" := by
  refine ⟨fun _ => rfl, rfl, rfl, ?_, fun _ _ => rfl, fun _ => ⟨rfl, rfl⟩, ?_, rfl, rfl⟩
  · intro m g ctx h
    unfold selectContext at h
    split at h
    · exact Or.inl (Option.some.inj h).symm
    · split at h
      · exact Or.inr (Option.some.inj h).symm
      · cases h
  · intro ctx outcome c hc
    have : (mainWith (logCalls outcome) ctx []).world = [(ctx, Sob), (ctx, Toy)] := rfl
    rw [this] at hc
    simp only [List.mem_cons, List.mem_singleton, List.not_mem_nil, or_false] at hc
    rcases hc with rfl | rfl <;> rfl

end Sopho

namespace Kaleidoscope

/-! ## The claim on `BinaryExprAST::codegen` -/

/-- C10, as stated, fails: in `(1 / 2) / 3` the outer node has the operator
`/`, for which the `switch` has no case, and its left operand yields null; the
outer `codegen()` returns null from the null test, before the `switch`, and
reports nothing: the only line on `stderr` is the one the inner node wrote. -/
theorem invalid_operator_unreported_after_null_operand :
    '/' ∉ knownOperators ∧
    leftValue (ExprAST.codegen namedBuilder nullOperand) emptyState = none ∧
    (ExprAST.codegen namedBuilder nullOperandOuter emptyState).2 = none ∧
    (ExprAST.codegen namedBuilder nullOperand emptyState).1.stderr = [invalidOperatorMessage] ∧
    (ExprAST.codegen namedBuilder nullOperandOuter emptyState).1.stderr =
      [invalidOperatorMessage] ∧
    (ExprAST.codegen namedBuilder nullOperandOuter emptyState).1.stderr ≠
      (afterOperands (ExprAST.codegen namedBuilder nullOperand)
        (ExprAST.codegen namedBuilder (.NumberExprAST "3")) emptyState).stderr ++
        [invalidOperatorMessage] := by
  decide

/-- The right operand is evaluated when the left one yields null: in
`(1 / 2) / (1 + 2)` the `addtmp` of the right operand is emitted, the result
is null, and the one report is that of `1 / 2`. -/
theorem right_operand_evaluated_after_null_left :
    ExprAST.codegen namedBuilder
        (.BinaryExprAST '/' nullOperand
          (.BinaryExprAST '+' (.NumberExprAST "1") (.NumberExprAST "2"))) emptyState =
      (⟨["addtmp"], [invalidOperatorMessage]⟩, none) := by
  rfl

/-- C10, amended: `BinaryExprAST::codegen` yields a value exactly when both
operands yield one and the operator is `+`, `-`, `*` or `<`.  The right
operand is evaluated on the state the left one leaves, whatever the left one
yields.  When an operand yields null the result is null and the state is the
one the operands left: nothing is emitted and nothing is reported.  When both
operands yield a value and the operator is any other character, the result is
null, nothing is emitted and `Error: invalid binary operator` is written to
`stderr`.  For the four operators the instruction is emitted on the builder
the operands left and nothing is reported. -/
theorem binary_codegen_cases {B V D : Type} (irb : IRBuilder B V D) (Op : Char)
    (LHS RHS : Codegen B V) (s : CodegenState B) :
    (((BinaryExprAST.codegen irb Op LHS RHS s).2.isSome = true) ↔
      ((leftValue LHS s).isSome = true ∧ (rightValue LHS RHS s).isSome = true ∧
        Op ∈ knownOperators)) ∧
    ((leftValue LHS s = none ∨ rightValue LHS RHS s = none) →
      BinaryExprAST.codegen irb Op LHS RHS s = (afterOperands LHS RHS s, none)) ∧
    (∀ L R, leftValue LHS s = some L → rightValue LHS RHS s = some R →
      (Op ∉ knownOperators →
        BinaryExprAST.codegen irb Op LHS RHS s =
          (⟨(afterOperands LHS RHS s).builder,
            (afterOperands LHS RHS s).stderr ++ [invalidOperatorMessage]⟩, none)) ∧
      (Op = '+' →
        BinaryExprAST.codegen irb Op LHS RHS s =
          (⟨(irb.CreateFAdd (afterOperands LHS RHS s).builder L R "addtmp").1,
            (afterOperands LHS RHS s).stderr⟩,
            some (irb.CreateFAdd (afterOperands LHS RHS s).builder L R "addtmp").2)) ∧
      (Op = '-' →
        BinaryExprAST.codegen irb Op LHS RHS s =
          (⟨(irb.CreateFSub (afterOperands LHS RHS s).builder L R "subtmp").1,
            (afterOperands LHS RHS s).stderr⟩,
            some (irb.CreateFSub (afterOperands LHS RHS s).builder L R "subtmp").2)) ∧
      (Op = '*' →
        BinaryExprAST.codegen irb Op LHS RHS s =
          (⟨(irb.CreateFMul (afterOperands LHS RHS s).builder L R "multmp").1,
            (afterOperands LHS RHS s).stderr⟩,
            some (irb.CreateFMul (afterOperands LHS RHS s).builder L R "multmp").2)) ∧
      (Op = '<' →
        BinaryExprAST.codegen irb Op LHS RHS s =
          (⟨(irb.CreateUIToFP
              (irb.CreateFCmpULT (afterOperands LHS RHS s).builder L R "cmptmp").1
              (irb.CreateFCmpULT (afterOperands LHS RHS s).builder L R "cmptmp").2
              "booltmp").1,
            (afterOperands LHS RHS s).stderr⟩,
            some (irb.CreateUIToFP
              (irb.CreateFCmpULT (afterOperands LHS RHS s).builder L R "cmptmp").1
              (irb.CreateFCmpULT (afterOperands LHS RHS s).builder L R "cmptmp").2
              "booltmp").2))) := by
  unfold leftValue rightValue afterOperands knownOperators
  refine ⟨?_, ?_, ?_⟩
  · unfold BinaryExprAST.codegen
    simp only
    cases hl : (LHS s).2 <;> cases hr : (RHS (LHS s).1).2 <;>
      simp [LogErrorV, LogError]
    by_cases h1 : Op = '+'
    · simp [h1]
    by_cases h2 : Op = '-'
    · simp [h2]
    by_cases h3 : Op = '*'
    · simp [h3]
    by_cases h4 : Op = '<'
    · simp [h4]
    simp [h1, h2, h3, h4]
  · intro h
    unfold BinaryExprAST.codegen
    simp only
    rcases h with h | h
    · rw [h]
    · rw [h]
      cases (LHS s).2 <;> rfl
  · intro L R hL hR
    unfold BinaryExprAST.codegen
    simp only
    rw [hL, hR]
    refine ⟨?_, ?_, ?_, ?_, ?_⟩
    · intro hop
      simp only [List.mem_cons, List.mem_singleton, List.not_mem_nil, or_false, not_or] at hop
      simp [hop.1, hop.2.1, hop.2.2.1, hop.2.2.2, LogErrorV, LogError, invalidOperatorMessage]
    · intro h; subst h; simp
    · intro h; subst h; simp
    · intro h; subst h; simp
    · intro h; subst h; simp

end Kaleidoscope
